import Mathlib

/-!
Verification of the JSON-file key-value store in `src/backend/database.py`
and the serialization queue in `src/backend/queue_management.py`.

The store keeps one JSON object per file under the root directory `db/`.
Every public operation is funnelled through a single background worker
(`SimpleQueue`), so operations never interleave.  We embed the two modules
shallowly: the filesystem is an explicit state threaded through the
operations, Python exceptions are an explicit `Except` channel, and the
worker loop is a small-step transition system.
-/

deriving instance DecidableEq for Except

namespace TestWebsite

/-- Result enumeration of `database.py` (`class Result`). -/
inductive Result
  | DATABASE_CORRUPT
  | DATABASE_ERROR
  | KEY_COLLISION
  | KEY_NOT_FOUND
  | SUCCESS
deriving DecidableEq, Repr

/-- Python exceptions that the database code can let escape: `TypeError`
from `json.dump` on a non-serializable value, `json.JSONDecodeError` from
`json.load`, `FileNotFoundError` from `open(fn, "r")`, and
`NotADirectoryError` from `os.makedirs` when a proper ancestor of the
target directory exists as a regular file (the code catches only
`FileExistsError`, so this one propagates). -/
inductive PyExn
  | typeError
  | jsonDecodeError
  | fileNotFound
  | notADirectory
deriving DecidableEq, Repr

/-- A fragment of the Python values that can be passed as `value` to
`set_value`.  `str`, `int`, `boolean` and `null` are JSON-serializable;
`pyset` models a Python `set` object, which `json.dump` rejects with
`TypeError`. -/
inductive PyVal
  | str (s : String)
  | int (n : Int)
  | boolean (b : Bool)
  | null
  | pyset (elems : List Int)
deriving DecidableEq, Repr

/-- Whether `json.dump` accepts the value (no `TypeError`). -/
def serializable : PyVal → Bool
  | .pyset _ => false
  | _ => true

/-- Content of a file on disk, seen through the JSON decoder: either bytes
that the decoder rejects (`corrupt`, keeping the raw bytes), or a JSON
object, kept parsed as an association list from string keys to values. -/
inductive FileData
  | corrupt (raw : String)
  | obj (entries : List (String × PyVal))
deriving DecidableEq, Repr

/-- A filesystem path, as its `/`-separated components. -/
abbrev Path := List String

/-- Split a character list at every `/`, keeping empty components (the
semantics of Python `str.split("/")` on the path). -/
def splitSlash : List Char → List String
  | [] => [""]
  | c :: rest =>
    match splitSlash rest with
    | [] => [""]
    | s :: ss =>
      if c = '/' then "" :: s :: ss else String.mk (c :: s.data) :: ss

/-- `os.path.join(_DB_DIRECTORY, fn)` with `_DB_DIRECTORY = "db/"`:
prepends the root component `db` to the components of `fn`. -/
def joinDb (fn : String) : Path := "db" :: splitSlash fn.data

/-- `os.path.dirname`: drop the last path component. -/
def dirname (p : Path) : Path := p.dropLast

/-- `strictPre a b`: `a` is a proper leading portion of the path `b`
(a strict ancestor in the directory tree). -/
def strictPre : Path → Path → Bool
  | [], [] => false
  | [], _ :: _ => true
  | _ :: _, [] => false
  | x :: xs, y :: ys => x == y && strictPre xs ys

/-- All non-empty proper leading portions of a path: the ancestors
`os.makedirs` walks through before reaching the path itself. -/
def properPrefixes : Path → List Path
  | [] => []
  | [_] => []
  | a :: b :: rest => [a] :: (properPrefixes (b :: rest)).map (fun q => a :: q)

/-- The filesystem state: existing regular files with their content, and
existing directories. -/
structure FS where
  files : List (Path × FileData)
  dirs : List Path
deriving DecidableEq, Repr

/-- Content of the file at `p`, if a file exists there. -/
def lookupFile (fs : FS) (p : Path) : Option FileData :=
  (fs.files.find? (fun pf => pf.1 == p)).map (fun pf => pf.2)

/-- Write (create or fully overwrite) the file at `p`. -/
def setFile (fs : FS) (p : Path) (d : FileData) : FS :=
  { fs with files := (p, d) :: fs.files }

/-- Python `data[key]` read on the decoded JSON object. -/
def dictLookup (d : List (String × PyVal)) (k : String) : Option PyVal :=
  (d.find? (fun kv => kv.1 == k)).map (fun kv => kv.2)

/-- Python `data[key] = value`: update in place if the key is present,
otherwise append the new binding. -/
def dictInsert (d : List (String × PyVal)) (k : String) (v : PyVal) :
    List (String × PyVal) :=
  if (dictLookup d k).isSome then
    d.map (fun kv => if kv.1 = k then (k, v) else kv)
  else
    d ++ [(k, v)]

/-- `os.makedirs(d, exist_ok=True)` in the non-raising case: record the
directory as existing. -/
def makedirs (fs : FS) (d : Path) : FS :=
  { fs with dirs := if d ∈ fs.dirs then fs.dirs else d :: fs.dirs }

/-- `a` resolves as a directory: it was created as one, or some regular
file exists strictly below it (on a real filesystem the existence of a
file certifies every proper ancestor of its path as a directory). -/
def impliedDir (fs : FS) (a : Path) : Bool :=
  decide (a ∈ fs.dirs) || fs.files.any (fun pf => strictPre a pf.1)

/-- `os.makedirs(d, exist_ok=True)` raises `NotADirectoryError` (ENOTDIR
during path resolution) when a proper ancestor of `d` exists as a regular
file and does not resolve as a directory. -/
def makedirsObstructed (fs : FS) (d : Path) : Bool :=
  (properPrefixes d).any (fun a => (lookupFile fs a).isSome && !impliedDir fs a)

/-- `os.makedirs(d, exist_ok=True)` returns without raising: no ancestor
obstructs resolution, and `d` itself is absent or resolves as a directory
(a regular file at `d` raises `FileExistsError` instead). -/
def makedirsOk (fs : FS) (d : Path) : Bool :=
  !makedirsObstructed fs d && ((lookupFile fs d).isNone || impliedDir fs d)

/-- `_ensure_exists(fn)`: run `os.makedirs(dirname, exist_ok=True)`.  A
`NotADirectoryError` (regular file at a proper ancestor of the dirname)
is not caught by the `except FileExistsError` handler and propagates; a
`FileExistsError` (the dirname itself exists as a regular file) is caught
and turned into `DATABASE_ERROR`.  Then `json.load` the file, creating it
with an empty object on `FileNotFoundError` and answering
`DATABASE_CORRUPT` on `JSONDecodeError`.  (Ancestor directories partially
created before the raise are not tracked; they are behaviorally inert.) -/
def ensure_exists (fs : FS) (fn : Path) : Except PyExn (Result × FS) :=
  let d := dirname fn
  if makedirsObstructed fs d then
    .error .notADirectory
  else if (lookupFile fs d).isSome && !impliedDir fs d then
    .ok (.DATABASE_ERROR, fs)
  else
    let fs1 : FS := makedirs fs d
    match lookupFile fs1 fn with
    | some (.corrupt _) => .ok (.DATABASE_CORRUPT, fs1)
    | some (.obj _) => .ok (.SUCCESS, fs1)
    | none => .ok (.SUCCESS, setFile fs1 fn (.obj []))

/-- `get_value(fn, key)`: join under `db/`, `_ensure_exists`, re-read and
re-parse the file, and look the key up.  The `error` outcomes model the
uncaught exceptions of the second `open`/`json.load` (unreachable after a
successful `_ensure_exists`). -/
def get_value (fs : FS) (fn : String) (key : String) :
    Except PyExn (Option PyVal × Result) × FS :=
  let p := joinDb fn
  match ensure_exists fs p with
  | .error e => (.error e, fs)
  | .ok (.SUCCESS, fs1) =>
    match lookupFile fs1 p with
    | some (.obj data) =>
      match dictLookup data key with
      | some v => (.ok (some v, .SUCCESS), fs1)
      | none => (.ok (none, .KEY_NOT_FOUND), fs1)
    | some (.corrupt _) => (.error .jsonDecodeError, fs1)
    | none => (.error .fileNotFound, fs1)
  | .ok (r, fs1) => (.ok (none, r), fs1)

/-- `set_value(fn, key, value, duplicate_ok=False)`: join under `db/`,
`_ensure_exists`, re-read the file, refuse a duplicate key unless
`duplicate_ok`, then `data[key] = value` and `json.dump` the whole object
back.  `open(fn, "w")` truncates the file before `json.dump` runs, so if
the updated object holds a non-serializable value the dump raises
`TypeError` mid-write and leaves truncated bytes (a strict prefix of the
encoding, which is not valid JSON). -/
def set_value (fs : FS) (fn : String) (key : String) (value : PyVal)
    (duplicate_ok : Bool := false) : Except PyExn Result × FS :=
  let p := joinDb fn
  match ensure_exists fs p with
  | .error e => (.error e, fs)
  | .ok (.SUCCESS, fs1) =>
    match lookupFile fs1 p with
    | some (.obj data) =>
      if !duplicate_ok && (dictLookup data key).isSome then
        (.ok .KEY_COLLISION, fs1)
      else
        let data1 := dictInsert data key value
        if data1.all (fun kv => serializable kv.2) then
          (.ok .SUCCESS, setFile fs1 p (.obj data1))
        else
          (.error .typeError, setFile fs1 p (.corrupt "\x7b"))
    | some (.corrupt _) => (.error .jsonDecodeError, fs1)
    | none => (.error .fileNotFound, fs1)
  | .ok (r, fs1) => (.ok r, fs1)

/-- The decoded object of the file at `q`; an absent or corrupt file reads
as the empty object (used only to state frame properties). -/
def objData (fs : FS) (q : Path) : List (String × PyVal) :=
  match lookupFile fs q with
  | some (.obj d) => d
  | _ => []

/-- Fixture: the table `t` holds the object `{"a": "x"}`. -/
def fsObj : FS := ⟨[(["db", "t"], .obj [("a", .str "x")])], [["db"]]⟩

/-- Fixture: the table `t` holds bytes that are not valid JSON. -/
def fsCorrupt : FS := ⟨[(["db", "t"], .corrupt "oops")], [["db"]]⟩

/-- Fixture: the path `db` itself is a regular file, so `os.makedirs`
fails on any table path. -/
def fsDirFile : FS := ⟨[(["db"], .corrupt "notadir")], []⟩

/-! ### The job queue of `queue_management.py` -/

/-- Job lifecycle states (`class Status`). -/
inductive Status
  | IN_QUEUE
  | IN_PROGRESS
  | COMPLETE
deriving DecidableEq, Repr

/-- `JobWrapper.do_job`: set the status to `IN_PROGRESS`, run the job and
record its output, set the status to `COMPLETE`.  The method has no
`try`/`except`: a job that raises leaves the wrapper at `IN_PROGRESS`
with no output, and the exception propagates (third component `true`). -/
def do_job {α : Type} (job : Except PyExn α) : Status × Option α × Bool :=
  match job with
  | .ok v => (.COMPLETE, some v, false)
  | .error _ => (.IN_PROGRESS, none, true)

/-- `SimpleQueue._worker`: pop jobs in FIFO order and `do_job` each.  The
loop body is not guarded, so a propagating exception terminates the worker
thread: the raising job stays `IN_PROGRESS` and every job behind it stays
`IN_QUEUE` forever.  Returns the final status and output of each job in
submission order. -/
def runWorker {α : Type} : List (Except PyExn α) → List (Status × Option α)
  | [] => []
  | j :: rest =>
    match do_job j with
    | (st, out, false) => (st, out) :: runWorker rest
    | (st, out, true) => (st, out) :: rest.map (fun _ => (.IN_QUEUE, none))

/-- Interleaved execution state of `SimpleQueue`: the statuses of all jobs
ever submitted, in submission order, and the worker's position in the FIFO
(jobs before `next` have been popped). -/
structure QState where
  jobs : List Status
  next : Nat
deriving DecidableEq, Repr

/-- Atomic transitions of `SimpleQueue`: a caller appends a job
(`add_job`), or the single worker starts the head job of the FIFO
(`do_job` line 21) or completes it and moves on (line 23 and the next
`Queue.get`). -/
inductive QStep : QState → QState → Prop
  | submit (s : QState) : QStep s ⟨s.jobs ++ [.IN_QUEUE], s.next⟩
  | start (s : QState) (h : s.jobs[s.next]? = some .IN_QUEUE) :
      QStep s ⟨s.jobs.set s.next .IN_PROGRESS, s.next⟩
  | complete (s : QState) (h : s.jobs[s.next]? = some .IN_PROGRESS) :
      QStep s ⟨s.jobs.set s.next .COMPLETE, s.next + 1⟩

/-- Initial state: no submissions, worker at the head. -/
def QInit : QState := ⟨[], 0⟩

/-- States reachable from startup by callers and the worker. -/
def QReachable (s : QState) : Prop := Relation.ReflTransGen QStep QInit s

/-- Inductive invariant of the queue: the worker position never passes the
tail, everything before it is `COMPLETE`, everything after it is still
`IN_QUEUE`, and the job at the position is not yet `COMPLETE`. -/
def QInv (s : QState) : Prop :=
  s.next ≤ s.jobs.length ∧
  (∀ i, i < s.next → s.jobs[i]? = some .COMPLETE) ∧
  (∀ i st, s.next < i → s.jobs[i]? = some st → st = .IN_QUEUE) ∧
  (∀ st, s.jobs[s.next]? = some st → st ≠ .COMPLETE)

theorem qinv_init : QInv QInit := by
  refine ⟨Nat.le_refl 0, ?_, ?_, ?_⟩ <;> simp [QInit]

theorem qinv_step {s t : QState} (hs : QInv s) (h : QStep s t) : QInv t := by
  obtain ⟨h1, h2, h3, h4⟩ := hs
  cases h with
  | submit =>
    refine ⟨?_, ?_, ?_, ?_⟩ <;> dsimp only
    · simpa using Nat.le_add_right_of_le h1
    · intro i hi
      rw [List.getElem?_append_left (Nat.lt_of_lt_of_le hi h1)]
      exact h2 i hi
    · intro i st hi hget
      by_cases hlen : i < s.jobs.length
      · rw [List.getElem?_append_left hlen] at hget
        exact h3 i st hi hget
      · have hup : i < s.jobs.length + 1 := by
          by_contra hcon
          rw [List.getElem?_eq_none (by simpa using Nat.le_of_not_lt hcon)] at hget
          exact Option.noConfusion hget
        have heq : i = s.jobs.length :=
          Nat.le_antisymm (Nat.lt_succ_iff.mp hup) (Nat.le_of_not_lt hlen)
        subst heq
        rw [List.getElem?_append_right (Nat.le_refl _)] at hget
        simp at hget
        exact hget.symm
    · intro st hget
      by_cases hlen : s.next < s.jobs.length
      · rw [List.getElem?_append_left hlen] at hget
        exact h4 st hget
      · have heq : s.next = s.jobs.length := Nat.le_antisymm h1 (Nat.le_of_not_lt hlen)
        rw [heq, List.getElem?_append_right (Nat.le_refl _)] at hget
        simp at hget
        subst hget
        intro hcon
        exact Status.noConfusion hcon
  | start h =>
    have hlen : s.next < s.jobs.length := by
      by_contra hcon
      rw [List.getElem?_eq_none (Nat.le_of_not_lt hcon)] at h
      exact Option.noConfusion h
    refine ⟨?_, ?_, ?_, ?_⟩ <;> dsimp only
    · simpa using h1
    · intro i hi
      rw [List.getElem?_set_ne (Nat.ne_of_gt hi)]
      exact h2 i hi
    · intro i st hi hget
      rw [List.getElem?_set_ne (Nat.ne_of_lt hi)] at hget
      exact h3 i st hi hget
    · intro st hget
      rw [List.getElem?_set_self hlen] at hget
      have hst : Status.IN_PROGRESS = st := Option.some.inj hget
      subst hst
      intro hcon
      exact Status.noConfusion hcon
  | complete h =>
    have hlen : s.next < s.jobs.length := by
      by_contra hcon
      rw [List.getElem?_eq_none (Nat.le_of_not_lt hcon)] at h
      exact Option.noConfusion h
    refine ⟨?_, ?_, ?_, ?_⟩ <;> dsimp only
    · simpa using hlen
    · intro i hi
      rcases Nat.lt_succ_iff_lt_or_eq.mp hi with hi' | hi'
      · rw [List.getElem?_set_ne (Nat.ne_of_gt hi')]
        exact h2 i hi'
      · subst hi'
        rw [List.getElem?_set_self hlen]
    · intro i st hi hget
      rw [List.getElem?_set_ne (Nat.ne_of_lt (Nat.lt_of_succ_lt hi))] at hget
      exact h3 i st (Nat.lt_of_succ_lt hi) hget
    · intro st hget
      rw [List.getElem?_set_ne (Nat.ne_of_lt (Nat.lt_succ_self _))] at hget
      have hst := h3 (s.next + 1) st (Nat.lt_succ_self _) hget
      subst hst
      intro hcon
      exact Status.noConfusion hcon

theorem qinv_reachable {s : QState} (h : QReachable s) : QInv s := by
  induction h with
  | refl => exact qinv_init
  | tail _ hstep ih => exact qinv_step ih hstep

/-! ### Basic lemmas about the filesystem and dictionary operations -/

theorem lookupFile_makedirs (fs : FS) (d q : Path) :
    lookupFile (makedirs fs d) q = lookupFile fs q := rfl

theorem files_makedirs (fs : FS) (d : Path) : (makedirs fs d).files = fs.files := rfl

theorem lookupFile_setFile_self (fs : FS) (p : Path) (dta : FileData) :
    lookupFile (setFile fs p dta) p = some dta := by
  simp [lookupFile, setFile]

theorem lookupFile_setFile_ne (fs : FS) (p q : Path) (dta : FileData) (h : q ≠ p) :
    lookupFile (setFile fs p dta) q = lookupFile fs q := by
  simp [lookupFile, setFile, List.find?_cons, h, Ne.symm h]

theorem dirname_joinDb_ne (p : String) : dirname (joinDb p) ≠ joinDb p := by
  intro h
  have hlen := congrArg List.length h
  simp [dirname, joinDb] at hlen

theorem splitSlash_ne_nil (cs : List Char) : splitSlash cs ≠ [] := by
  cases cs with
  | nil => simp [splitSlash]
  | cons c rest =>
    rw [splitSlash]
    cases splitSlash rest with
    | nil => simp
    | cons s ss => by_cases h : c = '/' <;> simp [h]

theorem joinDb_length (p : String) : 2 ≤ (joinDb p).length := by
  have h := splitSlash_ne_nil p.data
  have hpos : 0 < (splitSlash p.data).length := List.length_pos.mpr h
  simp only [joinDb, List.length_cons]
  omega

theorem properPrefixes_dropLast_subset (l : Path) :
    ∀ a, a ∈ properPrefixes l.dropLast → a ∈ properPrefixes l := by
  induction l with
  | nil => intro a ha; simpa using ha
  | cons x rest ih =>
    intro a ha
    cases rest with
    | nil => simp [properPrefixes] at ha
    | cons y rest2 =>
      rw [List.dropLast_cons₂] at ha
      cases hdl : (y :: rest2).dropLast with
      | nil => rw [hdl] at ha; simp [properPrefixes] at ha
      | cons z rest3 =>
        rw [hdl, properPrefixes] at ha
        rw [properPrefixes]
        rcases List.mem_cons.mp ha with rfl | hmem
        · exact List.mem_cons_self _ _
        · rcases List.mem_map.mp hmem with ⟨b, hb, rfl⟩
          rw [← hdl] at hb
          exact List.mem_cons_of_mem _ (List.mem_map.mpr ⟨b, ih b hb, rfl⟩)

theorem dropLast_mem_properPrefixes (l : Path) (h2 : 2 ≤ l.length) :
    l.dropLast ∈ properPrefixes l := by
  induction l with
  | nil => simp at h2
  | cons x rest ih =>
    cases rest with
    | nil => simp at h2
    | cons y rest2 =>
      cases rest2 with
      | nil => simp [properPrefixes]
      | cons z rest3 =>
        rw [List.dropLast_cons₂, properPrefixes]
        refine List.mem_cons_of_mem _ (List.mem_map.mpr ⟨(y :: z :: rest3).dropLast, ?_, rfl⟩)
        exact ih (by simp)

theorem dirname_mem_properPrefixes_joinDb (p : String) :
    dirname (joinDb p) ∈ properPrefixes (joinDb p) :=
  dropLast_mem_properPrefixes (joinDb p) (joinDb_length p)

theorem mem_properPrefixes_strictPre (l : Path) :
    ∀ a, a ∈ properPrefixes l → strictPre a l = true := by
  induction l with
  | nil => intro a ha; simp [properPrefixes] at ha
  | cons x rest ih =>
    intro a ha
    cases rest with
    | nil => simp [properPrefixes] at ha
    | cons y rest2 =>
      rw [properPrefixes] at ha
      rcases List.mem_cons.mp ha with rfl | hmem
      · simp [strictPre]
      · rcases List.mem_map.mp hmem with ⟨b, hb, rfl⟩
        simp [strictPre, ih b hb]

theorem impliedDir_of_file_below (fs : FS) (a q : Path) (fd : FileData)
    (hf : lookupFile fs q = some fd) (hpre : strictPre a q = true) :
    impliedDir fs a = true := by
  rw [lookupFile] at hf
  cases hfind : fs.files.find? (fun pf => pf.1 == q) with
  | none => rw [hfind] at hf; simp at hf
  | some pf =>
    have hmem := List.mem_of_find?_eq_some hfind
    have hq : pf.1 = q := by simpa using List.find?_some hfind
    rw [impliedDir, Bool.or_eq_true]
    right
    rw [List.any_eq_true]
    exact ⟨pf, hmem, by rw [hq]; exact hpre⟩

theorem impliedDir_makedirs (fs : FS) (e a : Path) (h : impliedDir fs a = true) :
    impliedDir (makedirs fs e) a = true := by
  rw [impliedDir, Bool.or_eq_true] at h ⊢
  rcases h with h | h
  · left
    rw [decide_eq_true_iff] at h ⊢
    simp only [makedirs]
    by_cases he : e ∈ fs.dirs
    · simpa [he] using h
    · simp [he, h]
  · right
    exact h

theorem makedirsOk_elim (fs : FS) (d : Path) (h : makedirsOk fs d = true) :
    makedirsObstructed fs d = false ∧
    ((lookupFile fs d).isSome && !impliedDir fs d) = false := by
  rw [makedirsOk, Bool.and_eq_true] at h
  refine ⟨by simpa using h.1, ?_⟩
  rcases Bool.or_eq_true _ _ |>.mp h.2 with h2 | h2
  · cases hopt : lookupFile fs d with
    | none => simp
    | some fd => rw [hopt] at h2; simp at h2
  · simp [h2]

theorem makedirsOk_of_existing_file (fs : FS) (q : Path) (fd : FileData)
    (hd : lookupFile fs (dirname q) = none) (hf : lookupFile fs q = some fd) :
    makedirsOk fs (dirname q) = true := by
  rw [makedirsOk, Bool.and_eq_true]
  constructor
  · rw [Bool.not_eq_true', makedirsObstructed, List.any_eq_false]
    intro a ha
    have hpre : strictPre a q = true :=
      mem_properPrefixes_strictPre q a (properPrefixes_dropLast_subset q a ha)
    simp [impliedDir_of_file_below fs a q fd hf hpre]
  · rw [Bool.or_eq_true]
    left
    simp [hd]

theorem makedirsOk_makedirs (fs : FS) (d e : Path) (h : makedirsOk fs d = true) :
    makedirsOk (makedirs fs e) d = true := by
  rw [makedirsOk, Bool.and_eq_true] at h ⊢
  obtain ⟨h1, h2⟩ := h
  rw [Bool.not_eq_true', makedirsObstructed, List.any_eq_false] at h1 ⊢
  constructor
  · intro a ha
    have hcl := h1 a ha
    rw [lookupFile_makedirs]
    intro hcon
    rw [Bool.and_eq_true] at hcon
    apply hcl
    rw [Bool.and_eq_true]
    refine ⟨hcon.1, ?_⟩
    rw [Bool.not_eq_true'] at hcon ⊢
    by_contra himp
    have : impliedDir fs a = true := Bool.of_not_eq_false himp
    rw [impliedDir_makedirs fs e a this] at hcon
    exact Bool.noConfusion hcon.2
  · rw [Bool.or_eq_true] at h2 ⊢
    rcases h2 with h2 | h2
    · left
      rw [show lookupFile (makedirs fs e) d = lookupFile fs d from rfl]
      exact h2
    · right
      exact impliedDir_makedirs fs e d h2

theorem dictLookup_nil (k : String) : dictLookup [] k = none := rfl

theorem dictLookup_cons (a : String × PyVal) (d : List (String × PyVal)) (k : String) :
    dictLookup (a :: d) k = if a.1 = k then some a.2 else dictLookup d k := by
  unfold dictLookup
  by_cases h : a.1 = k
  · rw [List.find?_cons_of_pos _ (by simpa using h), if_pos h]
    rfl
  · rw [List.find?_cons_of_neg _ (by simpa using h), if_neg h]

theorem dictLookup_map_update (d : List (String × PyVal)) (k : String) (v : PyVal) :
    dictLookup (d.map (fun kv => if kv.1 = k then (k, v) else kv)) k =
      if (dictLookup d k).isSome then some v else none := by
  induction d with
  | nil => simp [dictLookup]
  | cons a rest ih =>
    by_cases h : a.1 = k
    · simp [List.map_cons, h, dictLookup_cons]
    · simp [List.map_cons, h, dictLookup_cons, ih]

theorem dictLookup_map_update_ne (d : List (String × PyVal)) (k k' : String) (v : PyVal)
    (h : k' ≠ k) :
    dictLookup (d.map (fun kv => if kv.1 = k then (k, v) else kv)) k' = dictLookup d k' := by
  induction d with
  | nil => simp [dictLookup]
  | cons a rest ih =>
    by_cases hak : a.1 = k
    · simp [List.map_cons, hak, dictLookup_cons, Ne.symm h, ih]
    · by_cases hak' : a.1 = k'
      · simp [List.map_cons, hak, dictLookup_cons, hak', h]
      · simp [List.map_cons, hak, dictLookup_cons, hak', ih]

theorem dictLookup_append_single (d : List (String × PyVal)) (k k' : String) (v : PyVal) :
    dictLookup (d ++ [(k, v)]) k' =
      match dictLookup d k' with
      | some w => some w
      | none => if k = k' then some v else none := by
  induction d with
  | nil => simp [dictLookup_nil, dictLookup_cons]
  | cons a rest ih =>
    by_cases h : a.1 = k'
    · simp [List.cons_append, dictLookup_cons, h]
    · simp [List.cons_append, dictLookup_cons, h, ih]

theorem dictLookup_dictInsert_self (d : List (String × PyVal)) (k : String) (v : PyVal) :
    dictLookup (dictInsert d k v) k = some v := by
  unfold dictInsert
  by_cases h : (dictLookup d k).isSome
  · rw [if_pos h, dictLookup_map_update, if_pos h]
  · rw [if_neg h, dictLookup_append_single]
    rw [Option.not_isSome_iff_eq_none] at h
    simp [h]

theorem dictLookup_dictInsert_ne (d : List (String × PyVal)) (k k' : String) (v : PyVal)
    (h : k' ≠ k) : dictLookup (dictInsert d k v) k' = dictLookup d k' := by
  unfold dictInsert
  by_cases hs : (dictLookup d k).isSome
  · rw [if_pos hs, dictLookup_map_update_ne _ _ _ _ h]
  · rw [if_neg hs, dictLookup_append_single]
    cases hd : dictLookup d k' with
    | some w => rfl
    | none => simp [Ne.symm h]

theorem dictInsert_all_serializable (d : List (String × PyVal)) (k : String) (v : PyVal)
    (h1 : d.all (fun kv => serializable kv.2) = true) (h2 : serializable v = true) :
    (dictInsert d k v).all (fun kv => serializable kv.2) = true := by
  unfold dictInsert
  by_cases hs : (dictLookup d k).isSome
  · rw [if_pos hs]
    rw [List.all_eq_true] at h1 ⊢
    intro kv hkv
    rcases List.mem_map.mp hkv with ⟨a, ha, rfl⟩
    by_cases hak : a.1 = k
    · simpa [hak] using h2
    · simpa [hak] using h1 a ha
  · rw [if_neg hs]
    rw [List.all_eq_true] at h1 ⊢
    intro kv hkv
    rcases List.mem_append.mp hkv with hmem | hmem
    · exact h1 kv hmem
    · rcases List.mem_singleton.mp hmem with rfl
      exact h2

/-! ### Characterizations of `ensure_exists` -/

theorem makedirsOk_of_flags (fs : FS) (d : Path)
    (hobs : makedirsObstructed fs d = false)
    (hfe : ((lookupFile fs d).isSome && !impliedDir fs d) = false) :
    makedirsOk fs d = true := by
  rw [makedirsOk, Bool.and_eq_true]
  refine ⟨by simp [hobs], ?_⟩
  rw [Bool.or_eq_true]
  cases hopt : lookupFile fs d with
  | none => left; simp
  | some fd =>
    right
    rw [hopt] at hfe
    simpa using hfe

theorem ensure_exists_notadir (fs : FS) (fn : Path)
    (hobs : makedirsObstructed fs (dirname fn) = true) :
    ensure_exists fs fn = .error .notADirectory := by
  simp [ensure_exists, hobs]

theorem ensure_exists_filexists (fs : FS) (fn : Path)
    (hobs : makedirsObstructed fs (dirname fn) = false)
    (hfe : ((lookupFile fs (dirname fn)).isSome && !impliedDir fs (dirname fn)) = true) :
    ensure_exists fs fn = .ok (.DATABASE_ERROR, fs) := by
  simp [ensure_exists, hobs, hfe]

theorem ensure_exists_corrupt (fs : FS) (fn : Path) (raw : String)
    (hmk : makedirsOk fs (dirname fn) = true)
    (hf : lookupFile fs fn = some (.corrupt raw)) :
    ensure_exists fs fn = .ok (.DATABASE_CORRUPT, makedirs fs (dirname fn)) := by
  obtain ⟨hobs, hfe⟩ := makedirsOk_elim fs (dirname fn) hmk
  simp [ensure_exists, hobs, hfe, lookupFile_makedirs, hf]

theorem ensure_exists_obj (fs : FS) (fn : Path) (data : List (String × PyVal))
    (hmk : makedirsOk fs (dirname fn) = true)
    (hf : lookupFile fs fn = some (.obj data)) :
    ensure_exists fs fn = .ok (.SUCCESS, makedirs fs (dirname fn)) := by
  obtain ⟨hobs, hfe⟩ := makedirsOk_elim fs (dirname fn) hmk
  simp [ensure_exists, hobs, hfe, lookupFile_makedirs, hf]

theorem ensure_exists_absent (fs : FS) (fn : Path)
    (hmk : makedirsOk fs (dirname fn) = true)
    (hf : lookupFile fs fn = none) :
    ensure_exists fs fn = .ok (.SUCCESS, setFile (makedirs fs (dirname fn)) fn (.obj [])) := by
  obtain ⟨hobs, hfe⟩ := makedirsOk_elim fs (dirname fn) hmk
  simp [ensure_exists, hobs, hfe, lookupFile_makedirs, hf]

/-! ### Characterizations of `get_value` and `set_value` -/

theorem get_value_notadir (fs : FS) (p k : String)
    (hobs : makedirsObstructed fs (dirname (joinDb p)) = true) :
    get_value fs p k = (.error .notADirectory, fs) := by
  simp [get_value, ensure_exists_notadir fs (joinDb p) hobs]

theorem get_value_direrr (fs : FS) (p k : String)
    (hobs : makedirsObstructed fs (dirname (joinDb p)) = false)
    (hfe : ((lookupFile fs (dirname (joinDb p))).isSome &&
      !impliedDir fs (dirname (joinDb p))) = true) :
    get_value fs p k = (.ok (none, .DATABASE_ERROR), fs) := by
  simp [get_value, ensure_exists_filexists fs (joinDb p) hobs hfe]

theorem get_value_corrupt (fs : FS) (p k : String) (raw : String)
    (hmk : makedirsOk fs (dirname (joinDb p)) = true)
    (hf : lookupFile fs (joinDb p) = some (.corrupt raw)) :
    get_value fs p k = (.ok (none, .DATABASE_CORRUPT), makedirs fs (dirname (joinDb p))) := by
  simp [get_value, ensure_exists_corrupt fs (joinDb p) raw hmk hf]

theorem get_value_found (fs : FS) (p k : String) (data : List (String × PyVal)) (v : PyVal)
    (hmk : makedirsOk fs (dirname (joinDb p)) = true)
    (hf : lookupFile fs (joinDb p) = some (.obj data))
    (hk : dictLookup data k = some v) :
    get_value fs p k = (.ok (some v, .SUCCESS), makedirs fs (dirname (joinDb p))) := by
  simp [get_value, ensure_exists_obj fs (joinDb p) data hmk hf, lookupFile_makedirs, hf, hk]

theorem get_value_notfound (fs : FS) (p k : String) (data : List (String × PyVal))
    (hmk : makedirsOk fs (dirname (joinDb p)) = true)
    (hf : lookupFile fs (joinDb p) = some (.obj data))
    (hk : dictLookup data k = none) :
    get_value fs p k = (.ok (none, .KEY_NOT_FOUND), makedirs fs (dirname (joinDb p))) := by
  simp [get_value, ensure_exists_obj fs (joinDb p) data hmk hf, lookupFile_makedirs, hf, hk]

theorem get_value_absent (fs : FS) (p k : String)
    (hmk : makedirsOk fs (dirname (joinDb p)) = true)
    (hf : lookupFile fs (joinDb p) = none) :
    get_value fs p k =
      (.ok (none, .KEY_NOT_FOUND),
        setFile (makedirs fs (dirname (joinDb p))) (joinDb p) (.obj [])) := by
  simp [get_value, ensure_exists_absent fs (joinDb p) hmk hf, lookupFile_setFile_self,
    dictLookup_nil]

theorem set_value_notadir (fs : FS) (p k : String) (v : PyVal) (b : Bool)
    (hobs : makedirsObstructed fs (dirname (joinDb p)) = true) :
    set_value fs p k v b = (.error .notADirectory, fs) := by
  simp [set_value, ensure_exists_notadir fs (joinDb p) hobs]

theorem set_value_direrr (fs : FS) (p k : String) (v : PyVal) (b : Bool)
    (hobs : makedirsObstructed fs (dirname (joinDb p)) = false)
    (hfe : ((lookupFile fs (dirname (joinDb p))).isSome &&
      !impliedDir fs (dirname (joinDb p))) = true) :
    set_value fs p k v b = (.ok .DATABASE_ERROR, fs) := by
  simp [set_value, ensure_exists_filexists fs (joinDb p) hobs hfe]

theorem set_value_corrupt (fs : FS) (p k : String) (v : PyVal) (b : Bool) (raw : String)
    (hmk : makedirsOk fs (dirname (joinDb p)) = true)
    (hf : lookupFile fs (joinDb p) = some (.corrupt raw)) :
    set_value fs p k v b = (.ok .DATABASE_CORRUPT, makedirs fs (dirname (joinDb p))) := by
  simp [set_value, ensure_exists_corrupt fs (joinDb p) raw hmk hf]

theorem set_value_collision (fs : FS) (p k : String) (v : PyVal)
    (data : List (String × PyVal)) (w : PyVal)
    (hmk : makedirsOk fs (dirname (joinDb p)) = true)
    (hf : lookupFile fs (joinDb p) = some (.obj data))
    (hk : dictLookup data k = some w) :
    set_value fs p k v = (.ok .KEY_COLLISION, makedirs fs (dirname (joinDb p))) := by
  simp [set_value, ensure_exists_obj fs (joinDb p) data hmk hf, lookupFile_makedirs, hf, hk]

theorem set_value_write (fs : FS) (p k : String) (v : PyVal) (b : Bool)
    (data : List (String × PyVal))
    (hmk : makedirsOk fs (dirname (joinDb p)) = true)
    (hf : lookupFile fs (joinDb p) = some (.obj data))
    (hcond : b = true ∨ dictLookup data k = none)
    (hser : (dictInsert data k v).all (fun kv => serializable kv.2) = true) :
    set_value fs p k v b =
      (.ok .SUCCESS,
        setFile (makedirs fs (dirname (joinDb p))) (joinDb p) (.obj (dictInsert data k v))) := by
  have hguard : (!b && (dictLookup data k).isSome) = false := by
    rcases hcond with hb | hk
    · simp [hb]
    · simp [hk]
  simp [set_value, ensure_exists_obj fs (joinDb p) data hmk hf, lookupFile_makedirs, hf,
    hguard, hser]

theorem set_value_typeerror (fs : FS) (p k : String) (v : PyVal) (b : Bool)
    (data : List (String × PyVal))
    (hmk : makedirsOk fs (dirname (joinDb p)) = true)
    (hf : lookupFile fs (joinDb p) = some (.obj data))
    (hcond : b = true ∨ dictLookup data k = none)
    (hser : (dictInsert data k v).all (fun kv => serializable kv.2) = false) :
    set_value fs p k v b =
      (.error .typeError,
        setFile (makedirs fs (dirname (joinDb p))) (joinDb p) (.corrupt "\x7b")) := by
  have hguard : (!b && (dictLookup data k).isSome) = false := by
    rcases hcond with hb | hk
    · simp [hb]
    · simp [hk]
  simp [set_value, ensure_exists_obj fs (joinDb p) data hmk hf, lookupFile_makedirs, hf,
    hguard, hser]

theorem set_value_absent (fs : FS) (p k : String) (v : PyVal) (b : Bool)
    (hmk : makedirsOk fs (dirname (joinDb p)) = true)
    (hf : lookupFile fs (joinDb p) = none)
    (hser : serializable v = true) :
    set_value fs p k v b =
      (.ok .SUCCESS,
        setFile (setFile (makedirs fs (dirname (joinDb p))) (joinDb p) (.obj []))
          (joinDb p) (.obj [(k, v)])) := by
  have hins : dictInsert [] k v = [(k, v)] := by simp [dictInsert, dictLookup_nil]
  simp [set_value, ensure_exists_absent fs (joinDb p) hmk hf, lookupFile_setFile_self,
    dictLookup_nil, hins, hser]

theorem set_value_absent_typeerror (fs : FS) (p k : String) (v : PyVal) (b : Bool)
    (hmk : makedirsOk fs (dirname (joinDb p)) = true)
    (hf : lookupFile fs (joinDb p) = none)
    (hser : serializable v = false) :
    set_value fs p k v b =
      (.error .typeError,
        setFile (setFile (makedirs fs (dirname (joinDb p))) (joinDb p) (.obj []))
          (joinDb p) (.corrupt "\x7b")) := by
  have hins : dictInsert [] k v = [(k, v)] := by simp [dictInsert, dictLookup_nil]
  simp [set_value, ensure_exists_absent fs (joinDb p) hmk hf, lookupFile_setFile_self,
    dictLookup_nil, hins, hser]

/-! ### The claims -/

/-- C2: writing an already-present key with the default
`duplicate_ok=false` answers `KeyCollision`, leaves the filesystem's files
untouched, and a subsequent `get_value` still returns the stored value
with `Success`. -/
theorem collision_guard (fs : FS) (p k : String) (v1 v2 : PyVal)
    (data : List (String × PyVal))
    (hd : lookupFile fs (dirname (joinDb p)) = none)
    (hf : lookupFile fs (joinDb p) = some (.obj data))
    (hk : dictLookup data k = some v1) :
    (set_value fs p k v2).1 = .ok .KEY_COLLISION ∧
    ((set_value fs p k v2).2).files = fs.files ∧
    (get_value (set_value fs p k v2).2 p k).1 = .ok (some v1, .SUCCESS) := by
  have hmk : makedirsOk fs (dirname (joinDb p)) = true :=
    makedirsOk_of_existing_file fs (joinDb p) _ hd hf
  rw [set_value_collision fs p k v2 data v1 hmk hf hk]
  refine ⟨rfl, files_makedirs fs _, ?_⟩
  have hmk2 : makedirsOk (makedirs fs (dirname (joinDb p))) (dirname (joinDb p)) = true :=
    makedirsOk_makedirs fs _ _ hmk
  have hf2 : lookupFile (makedirs fs (dirname (joinDb p))) (joinDb p) = some (.obj data) := by
    rw [lookupFile_makedirs, hf]
  rw [get_value_found _ p k data v1 hmk2 hf2 hk]

/-- C5: on a file whose bytes do not parse as JSON, `get_value` returns
`(None, DatabaseCorrupt)` and `set_value` returns `DatabaseCorrupt`, and
neither touches any file. -/
theorem corrupt_file_detected (fs : FS) (p raw : String)
    (hd : lookupFile fs (dirname (joinDb p)) = none)
    (hf : lookupFile fs (joinDb p) = some (.corrupt raw)) :
    ∀ k v b,
      (get_value fs p k).1 = .ok (none, .DATABASE_CORRUPT) ∧
      ((get_value fs p k).2).files = fs.files ∧
      (set_value fs p k v b).1 = .ok .DATABASE_CORRUPT ∧
      ((set_value fs p k v b).2).files = fs.files := by
  intro k v b
  have hmk : makedirsOk fs (dirname (joinDb p)) = true :=
    makedirsOk_of_existing_file fs (joinDb p) _ hd hf
  rw [get_value_corrupt fs p k raw hmk hf, set_value_corrupt fs p k v b raw hmk hf]
  exact ⟨rfl, files_makedirs fs _, rfl, files_makedirs fs _⟩

/-- C7: the claim says that whenever directory creation fails — the
spec's own example is a path collision with an existing non-directory —
`_ensure_exists` returns `DatabaseError` as a value rather than letting
the failure propagate.  The code catches only `FileExistsError`, so that
holds just for a collision at the dirname itself (second conjunct); a
regular file at a proper ancestor (here the store root `db` itself, with
the nested table path `a/t`) makes `os.makedirs` raise
`NotADirectoryError`, which propagates unhandled out of `_ensure_exists`
(first conjunct), contradicting the claim and the function's own
docstring. -/
theorem ensure_exists_uncaught_notadirectory :
    ensure_exists fsDirFile ["db", "a", "t"] = .error .notADirectory ∧
    ensure_exists fsDirFile ["db", "t"] = .ok (.DATABASE_ERROR, fsDirFile) := by
  decide

/-- C10: whenever `get_value` returns (rather than raises) a result code
other than `Success`, the value component of the returned pair is `None`. -/
theorem get_value_none_on_failure (fs : FS) (p k : String) (v : Option PyVal) (r : Result)
    (h : (get_value fs p k).1 = .ok (v, r)) (hr : r ≠ .SUCCESS) : v = none := by
  cases hobs : makedirsObstructed fs (dirname (joinDb p)) with
  | true =>
    rw [get_value_notadir fs p k hobs] at h
    exact Except.noConfusion h
  | false =>
    cases hfe : ((lookupFile fs (dirname (joinDb p))).isSome &&
        !impliedDir fs (dirname (joinDb p))) with
    | true =>
      rw [get_value_direrr fs p k hobs hfe] at h
      exact (Prod.mk.injEq _ _ _ _ |>.mp (Except.ok.inj h)).1.symm
    | false =>
      have hmk := makedirsOk_of_flags fs (dirname (joinDb p)) hobs hfe
      cases hf : lookupFile fs (joinDb p) with
      | none =>
        rw [get_value_absent fs p k hmk hf] at h
        exact (Prod.mk.injEq _ _ _ _ |>.mp (Except.ok.inj h)).1.symm
      | some fd =>
        cases fd with
        | corrupt raw =>
          rw [get_value_corrupt fs p k raw hmk hf] at h
          exact (Prod.mk.injEq _ _ _ _ |>.mp (Except.ok.inj h)).1.symm
        | obj data =>
          cases hdl : dictLookup data k with
          | some w =>
            rw [get_value_found fs p k data w hmk hf hdl] at h
            have := (Prod.mk.injEq _ _ _ _ |>.mp (Except.ok.inj h)).2
            exact absurd this.symm hr
          | none =>
            rw [get_value_notfound fs p k data hmk hf hdl] at h
            exact (Prod.mk.injEq _ _ _ _ |>.mp (Except.ok.inj h)).1.symm

/-- C9: a successful `set_value(path, k, v, duplicate_ok=true)` leaves the
on-disk object equal to the previous one with only `k` rebound to `v`, and
every other file untouched. -/
theorem set_success_frame (fs : FS) (p k : String) (v : PyVal)
    (h : (set_value fs p k v true).1 = .ok .SUCCESS) :
    dictLookup (objData (set_value fs p k v true).2 (joinDb p)) k = some v ∧
    (∀ k2, k2 ≠ k → dictLookup (objData (set_value fs p k v true).2 (joinDb p)) k2 =
      dictLookup (objData fs (joinDb p)) k2) ∧
    (∀ r, r ≠ joinDb p → lookupFile (set_value fs p k v true).2 r = lookupFile fs r) := by
  cases hobs : makedirsObstructed fs (dirname (joinDb p)) with
  | true =>
    rw [set_value_notadir fs p k v true hobs] at h
    exact Except.noConfusion h
  | false =>
    cases hfe : ((lookupFile fs (dirname (joinDb p))).isSome &&
        !impliedDir fs (dirname (joinDb p))) with
    | true =>
      rw [set_value_direrr fs p k v true hobs hfe] at h
      exact absurd (Except.ok.inj h) (by intro hc; exact Result.noConfusion hc)
    | false =>
      have hmk := makedirsOk_of_flags fs (dirname (joinDb p)) hobs hfe
      cases hf : lookupFile fs (joinDb p) with
      | some fd =>
        cases fd with
        | corrupt raw =>
          rw [set_value_corrupt fs p k v true raw hmk hf] at h
          exact absurd (Except.ok.inj h) (by intro hc; exact Result.noConfusion hc)
        | obj data =>
          cases hser : (dictInsert data k v).all (fun kv => serializable kv.2) with
          | false =>
            rw [set_value_typeerror fs p k v true data hmk hf (Or.inl rfl) hser] at h
            exact Except.noConfusion h
          | true =>
            rw [set_value_write fs p k v true data hmk hf (Or.inl rfl) hser]
            refine ⟨?_, ?_, ?_⟩
            · rw [objData, lookupFile_setFile_self]
              exact dictLookup_dictInsert_self data k v
            · intro k2 hk2
              rw [objData, lookupFile_setFile_self, objData, hf]
              exact dictLookup_dictInsert_ne data k k2 v hk2
            · intro r hr
              rw [lookupFile_setFile_ne _ _ _ _ hr, lookupFile_makedirs]
      | none =>
        cases hser : serializable v with
        | false =>
          rw [set_value_absent_typeerror fs p k v true hmk hf hser] at h
          exact Except.noConfusion h
        | true =>
          rw [set_value_absent fs p k v true hmk hf hser]
          refine ⟨?_, ?_, ?_⟩
          · rw [objData, lookupFile_setFile_self]
            simp [dictLookup_cons]
          · intro k2 hk2
            rw [objData, lookupFile_setFile_self, objData, hf]
            simp [dictLookup_cons, Ne.symm hk2, dictLookup_nil]
          · intro r hr
            rw [lookupFile_setFile_ne _ _ _ _ hr, lookupFile_setFile_ne _ _ _ _ hr,
              lookupFile_makedirs]

/-- C3 counterexample: `set_value` on the table `{"a": "x"}` with the
non-JSON-serializable value `set([1])` raises `TypeError` after
`open(fn, "w")` has truncated the file: the file is neither unchanged nor
a complete JSON object afterwards — the write is not atomic for every
input. -/
theorem set_value_partial_write_cex :
    (set_value fsObj "t" "k" (.pyset [1]) true).1 = .error .typeError ∧
    lookupFile fsObj (joinDb "t") = some (.obj [("a", .str "x")]) ∧
    lookupFile (set_value fsObj "t" "k" (.pyset [1]) true).2 (joinDb "t") =
      some (.corrupt "\x7b") ∧
    ¬ ∃ d2, lookupFile (set_value fsObj "t" "k" (.pyset [1]) true).2 (joinDb "t") =
      some (.obj d2) := by
  refine ⟨by decide, by decide, by decide, ?_⟩
  rintro ⟨d2, hc⟩
  have h1 : lookupFile (set_value fsObj "t" "k" (.pyset [1]) true).2 (joinDb "t") =
      some (.corrupt "\x7b") := by decide
  rw [h1] at hc
  exact FileData.noConfusion (Option.some.inj hc)

/-- C3 amended: restricted to JSON-serializable values (and file states
the store itself produces), `set_value` either leaves the file's content
unchanged or fully rewrites it as a complete JSON object in which the new
key is bound. -/
theorem set_value_atomic (fs : FS) (p k : String) (v : PyVal) (b : Bool)
    (hv : serializable v = true)
    (hall : (objData fs (joinDb p)).all (fun kv => serializable kv.2) = true) :
    lookupFile (set_value fs p k v b).2 (joinDb p) = lookupFile fs (joinDb p) ∨
    ∃ data1, lookupFile (set_value fs p k v b).2 (joinDb p) = some (.obj data1) ∧
      dictLookup data1 k = some v := by
  cases hobs : makedirsObstructed fs (dirname (joinDb p)) with
  | true =>
    rw [set_value_notadir fs p k v b hobs]
    exact Or.inl rfl
  | false =>
    cases hfe : ((lookupFile fs (dirname (joinDb p))).isSome &&
        !impliedDir fs (dirname (joinDb p))) with
    | true =>
      rw [set_value_direrr fs p k v b hobs hfe]
      exact Or.inl rfl
    | false =>
      have hmk := makedirsOk_of_flags fs (dirname (joinDb p)) hobs hfe
      cases hf : lookupFile fs (joinDb p) with
      | some fd =>
        cases fd with
        | corrupt raw =>
          rw [set_value_corrupt fs p k v b raw hmk hf]
          exact Or.inl ((lookupFile_makedirs fs _ _).trans hf)
        | obj data =>
          cases hguard : (!b && (dictLookup data k).isSome) with
          | true =>
            have hb : b = false := by
              cases b
              · rfl
              · simp at hguard
            obtain ⟨w, hw⟩ :=
              Option.isSome_iff_exists.mp (Bool.and_eq_true _ _ |>.mp hguard).2
            subst hb
            rw [set_value_collision fs p k v data w hmk hf hw]
            exact Or.inl ((lookupFile_makedirs fs _ _).trans hf)
          | false =>
            have hcond : b = true ∨ dictLookup data k = none := by
              cases b
              · right
                have hc2 := (Bool.and_eq_false_iff.mp hguard)
                rcases hc2 with hc | hc
                · exact absurd hc (by simp)
                · exact Option.not_isSome_iff_eq_none.mp (by simp [hc])
              · exact Or.inl rfl
            have hall' : data.all (fun kv => serializable kv.2) = true := by
              rw [objData, hf] at hall
              exact hall
            have hser := dictInsert_all_serializable data k v hall' hv
            rw [set_value_write fs p k v b data hmk hf hcond hser]
            exact Or.inr ⟨dictInsert data k v, lookupFile_setFile_self _ _ _,
              dictLookup_dictInsert_self data k v⟩
      | none =>
        rw [set_value_absent fs p k v b hmk hf hv]
        exact Or.inr ⟨[(k, v)], lookupFile_setFile_self _ _ _, by simp [dictLookup_cons]⟩

/-- C4: the claim requires a raising job's failure to be captured and
delivered while the worker continues with the next job; the code has no
failure boundary in `do_job` or `_worker`, so the exception kills the
worker thread: the raising job is stuck at `IN_PROGRESS`, the next queued
job stays `IN_QUEUE`, and no job ever reaches `COMPLETE` (so the caller's
busy-wait on `status != COMPLETE` never terminates). -/
theorem worker_crash_on_raising_job :
    runWorker [Except.error PyExn.typeError, Except.ok (0 : Nat)] =
      [(.IN_PROGRESS, none), (.IN_QUEUE, none)] ∧
    ∀ st ∈ runWorker [Except.error PyExn.typeError, Except.ok (0 : Nat)],
      st.1 ≠ Status.COMPLETE := by
  decide

/-- C8: in every reachable queue state, a job that has started executing
implies every earlier-submitted job has already completed (global FIFO
order), and at most one job is executing at any instant. -/
theorem fifo_execution (s : QState) (h : QReachable s) :
    (∀ i j : Nat, ∀ stj : Status, i < j → s.jobs[j]? = some stj → stj ≠ .IN_QUEUE →
      s.jobs[i]? = some .COMPLETE) ∧
    (∀ i j : Nat, s.jobs[i]? = some .IN_PROGRESS → s.jobs[j]? = some .IN_PROGRESS →
      i = j) := by
  have hinv := qinv_reachable h
  unfold QInv at hinv
  obtain ⟨h1, h2, h3, h4⟩ := hinv
  constructor
  · intro i j stj hij hj hne
    have hjle : j ≤ s.next := by
      by_contra hcon
      exact hne (h3 j stj (Nat.lt_of_not_le hcon) hj)
    exact h2 i (Nat.lt_of_lt_of_le hij hjle)
  · intro i j hi hj
    have hieq : i = s.next := by
      rcases Nat.lt_trichotomy i s.next with hlt | heq | hgt
      · have hc := h2 i hlt
        rw [hi] at hc
        exact absurd (Option.some.inj hc) (by intro hc2; exact Status.noConfusion hc2)
      · exact heq
      · exact absurd (h3 i _ hgt hi) (by intro hc2; exact Status.noConfusion hc2)
    have hjeq : j = s.next := by
      rcases Nat.lt_trichotomy j s.next with hlt | heq | hgt
      · have hc := h2 j hlt
        rw [hj] at hc
        exact absurd (Option.some.inj hc) (by intro hc2; exact Status.noConfusion hc2)
      · exact heq
      · exact absurd (h3 j _ hgt hj) (by intro hc2; exact Status.noConfusion hc2)
    rw [hieq, hjeq]

/-! ### Witnesses: the hypotheses of the claim theorems are satisfiable -/

theorem collision_guard_witness :
    (set_value fsObj "t" "a" (PyVal.int 0)).1 = .ok .KEY_COLLISION ∧
    ((set_value fsObj "t" "a" (PyVal.int 0)).2).files = fsObj.files ∧
    (get_value (set_value fsObj "t" "a" (PyVal.int 0)).2 "t" "a").1 =
      .ok (some (.str "x"), .SUCCESS) :=
  collision_guard fsObj "t" "a" (.str "x") (PyVal.int 0) [("a", .str "x")]
    (by decide) (by decide) (by decide)

theorem corrupt_file_detected_witness :
    (get_value fsCorrupt "t" "k").1 = .ok (none, .DATABASE_CORRUPT) ∧
    ((get_value fsCorrupt "t" "k").2).files = fsCorrupt.files ∧
    (set_value fsCorrupt "t" "k" (PyVal.int 0) false).1 = .ok .DATABASE_CORRUPT ∧
    ((set_value fsCorrupt "t" "k" (PyVal.int 0) false).2).files = fsCorrupt.files :=
  corrupt_file_detected fsCorrupt "t" "oops" (by decide) (by decide) "k" (PyVal.int 0) false

theorem get_value_none_on_failure_witness : (none : Option PyVal) = none :=
  get_value_none_on_failure fsCorrupt "t" "k" none .DATABASE_CORRUPT (by decide) (by decide)

theorem set_success_frame_witness :
    dictLookup (objData (set_value fsObj "t" "b" (PyVal.int 7) true).2 (joinDb "t")) "b" =
      some (PyVal.int 7) ∧
    dictLookup (objData (set_value fsObj "t" "b" (PyVal.int 7) true).2 (joinDb "t")) "a" =
      dictLookup (objData fsObj (joinDb "t")) "a" ∧
    lookupFile (set_value fsObj "t" "b" (PyVal.int 7) true).2 ["db", "u"] =
      lookupFile fsObj ["db", "u"] := by
  have h := set_success_frame fsObj "t" "b" (PyVal.int 7) (by decide)
  exact ⟨h.1, h.2.1 "a" (by decide), h.2.2 ["db", "u"] (by decide)⟩

theorem set_value_atomic_witness :
    lookupFile (set_value fsObj "t" "k" (PyVal.int 1) false).2 (joinDb "t") =
      lookupFile fsObj (joinDb "t") ∨
    ∃ data1, lookupFile (set_value fsObj "t" "k" (PyVal.int 1) false).2 (joinDb "t") =
      some (.obj data1) ∧ dictLookup data1 "k" = some (PyVal.int 1) :=
  set_value_atomic fsObj "t" "k" (PyVal.int 1) false (by decide) (by decide)

theorem fifo_execution_witness :
    (⟨[Status.COMPLETE, Status.IN_PROGRESS], 1⟩ : QState).jobs[0]? =
      some Status.COMPLETE := by
  have hreach : QReachable ⟨[Status.COMPLETE, Status.IN_PROGRESS], 1⟩ := by
    unfold QReachable
    refine Relation.ReflTransGen.head (QStep.submit QInit) ?_
    refine Relation.ReflTransGen.head (QStep.start ⟨[.IN_QUEUE], 0⟩ (by decide)) ?_
    refine Relation.ReflTransGen.head (QStep.complete ⟨[.IN_PROGRESS], 0⟩ (by decide)) ?_
    refine Relation.ReflTransGen.head (QStep.submit ⟨[.COMPLETE], 1⟩) ?_
    refine Relation.ReflTransGen.head
      (QStep.start ⟨[.COMPLETE, .IN_QUEUE], 1⟩ (by decide)) ?_
    exact Relation.ReflTransGen.refl
  exact (fifo_execution _ hreach).1 0 1 Status.IN_PROGRESS (by decide) (by decide) (by decide)

end TestWebsite
